import Mathlib

/-!
Verification of the broadcast server in `src/server.rs`.

The server keeps a `Connections` struct: a `HashMap<u16, OwnedWriteHalf>` from
client id to the write half of that client's TCP stream.  `handle_connection`
registers the client's write half, sends a login acknowledgement, and then
loops reading lines; each complete line is wrapped as `MESSAGE:<id> <text>\n`
and passed to `Connections::broadcast`, which writes the wrapped message to
every other registered client and `ACK:MESSAGE\n` to the sender.  A read error
removes the client from the map and ends the loop.

Embedding choices:
* Client ids (`u16` in the source) are modelled as `Nat`; none of the verified
  properties depend on the 16-bit width.
* An `OwnedWriteHalf` is modelled by an opaque channel handle (`Chan := Nat`).
  The outcome of each asynchronous `write` call is supplied by a failure
  oracle `F : Chan → String → Bool` (`true` = the write succeeded); the source
  only inspects success/failure (`if let Err(e) = ... { eprintln!(...) }`), so
  each write is recorded as a `WriteEvent` carrying the target channel, the
  bytes handed to `write`, and the oracle's verdict.
* The `HashMap` is modelled as an association list whose well-formedness
  invariant (`Connections.Wf`) is key-uniqueness; `HashMap::insert` replaces
  the value stored under an existing key and `HashMap::remove` deletes the
  key, which is what `Connections.insert` / `Connections.remove` do.
* The `.unwrap()` in `Connections::login_msg` makes that call fallible: the
  embedding returns `Option`, with `none` modelling the panic on an absent id.
* The read loop of `handle_connection` is a step function `handleStep` over
  the three outcomes of `read.next_line().await` (`Ok(Some(line))`,
  `Ok(None)`, `Err(_)`) plus a driver `handleRun` folding a list of such
  outcomes, mirroring the `loop { match line_result { ... } }`.
-/

abbrev ClientId := Nat

abbrev Chan := Nat

/-- One call to `write` on an `OwnedWriteHalf`: the channel written to, the
bytes handed over, and whether the write succeeded (`ok = false` models the
`Err(e)` branch that only prints the error). -/
structure WriteEvent where
  chan : Chan
  bytes : String
  ok : Bool
deriving DecidableEq, Repr

/-- The fixed acknowledgement token `b"ACK:MESSAGE\n"` written to the sender in
`Connections::broadcast`. -/
def ackToken : String := "ACK:MESSAGE\n"

/-- `format!("MESSAGE:{} {}\n", c_id, line)` from `handle_connection`. -/
def wrapMsg (c_id : ClientId) (line : String) : String :=
  "MESSAGE:" ++ toString c_id ++ " " ++ line ++ "\n"

/-- `format!("LOGIN:{}\n", c_id)` from `Connections::login_msg`. -/
def loginToken (c_id : ClientId) : String :=
  "LOGIN:" ++ toString c_id ++ "\n"

/-- The `Connections` struct: `cons : HashMap<u16, OwnedWriteHalf>`, modelled
as an association list from client id to channel handle. -/
structure Connections where
  cons : List (ClientId × Chan)
deriving DecidableEq, Repr

/-- `Connections::new()`. -/
def Connections.new : Connections := ⟨[]⟩

/-- Key lookup in the map, as used by `self.cons.get_mut(&c_id)`. -/
def lookupList : List (ClientId × Chan) → ClientId → Option Chan
  | [], _ => none
  | p :: rest, id => if p.fst = id then some p.snd else lookupList rest id

/-- Lookup on the `Connections` struct. -/
def Connections.lookup (c : Connections) (id : ClientId) : Option Chan :=
  lookupList c.cons id

/-- `self.cons.insert(c_id, write)`: `HashMap::insert` stores `chan` under
`id`, replacing (and discarding) any value previously stored under `id`. -/
def Connections.insert (c : Connections) (id : ClientId) (ch : Chan) : Connections :=
  ⟨(id, ch) :: c.cons.filter (fun p => p.fst ≠ id)⟩

/-- `self.cons.remove(&c_id)`: `HashMap::remove` deletes the entry stored
under `id`, if any. -/
def Connections.remove (c : Connections) (id : ClientId) : Connections :=
  ⟨c.cons.filter (fun p => p.fst ≠ id)⟩

/-- Well-formedness of the map model: each key occurs at most once, the
invariant `HashMap` maintains. -/
def Connections.Wf (c : Connections) : Prop :=
  (c.cons.map Prod.fst).Nodup

/-- Number of entries stored under key `id`. -/
def Connections.keyCount (c : Connections) (id : ClientId) : Nat :=
  (c.cons.filter (fun p => p.fst = id)).length

/-- `Connections::broadcast(&mut self, c_id, message)`: the `for` loop over
`self.cons.iter_mut()` writes `message` to every entry whose key differs from
`c_id` and `ACK:MESSAGE\n` to the entry keyed `c_id`; an `Err` from a write is
only printed, so the loop visits every entry regardless of failures and never
touches the map structure.  Returns the (unchanged) struct and the list of
write events in iteration order. -/
def Connections.broadcast (c : Connections) (F : Chan → String → Bool)
    (c_id : ClientId) (message : String) : Connections × List WriteEvent :=
  (c, c.cons.map (fun con =>
    if con.fst ≠ c_id then
      ⟨con.snd, message, F con.snd message⟩
    else
      ⟨con.snd, ackToken, F con.snd ackToken⟩))

/-- `Connections::login_msg(&mut self, c_id)`: writes `LOGIN:<c_id>\n` through
`self.cons.get_mut(&c_id).unwrap()`.  The `.unwrap()` panics when `c_id` is
absent, modelled by `none`; on success the map is unchanged and exactly one
write event is produced. -/
def Connections.login_msg (c : Connections) (F : Chan → String → Bool)
    (c_id : ClientId) : Option (Connections × List WriteEvent) :=
  match c.lookup c_id with
  | some ch => some (c, [⟨ch, loginToken c_id, F ch (loginToken c_id)⟩])
  | none => none

/-- The three outcomes of `read.next_line().await` in `handle_connection`:
`Ok(Some(line))`, `Ok(None)` (end of stream), `Err(_)`. -/
inductive ReadResult where
  | line (s : String)
  | eof
  | err
deriving DecidableEq, Repr

/-- One iteration of the read loop in `handle_connection` for client `c_id`:
on `Ok(Some(line))` the line is wrapped and broadcast (loop continues); on
`Ok(None)` nothing happens (loop continues); on `Err(_)` the client is removed
from the map and the loop breaks.  Returns the new map, the write events of
this iteration, and whether the loop continues. -/
def handleStep (F : Chan → String → Bool) (c_id : ClientId) (c : Connections) :
    ReadResult → Connections × List WriteEvent × Bool
  | .line s =>
    let r := c.broadcast F c_id (wrapMsg c_id s)
    (r.fst, r.snd, true)
  | .eof => (c, [], true)
  | .err => (c.remove c_id, [], false)

/-- The read loop of `handle_connection`, driven by a list of read outcomes;
stops at the first `Err(_)` (the `break`). -/
def handleRun (F : Chan → String → Bool) (c_id : ClientId) :
    Connections → List ReadResult → Connections × List WriteEvent
  | c, [] => (c, [])
  | c, r :: rs =>
    match handleStep F c_id c r with
    | (c1, evs, true) =>
      let res := handleRun F c_id c1 rs
      (res.fst, evs ++ res.snd)
    | (c1, evs, false) => (c1, evs)

/-- The registration prefix of `handle_connection`: insert the write half
under `c_id`, then call `login_msg(c_id)`.  The `none` branch models the
panic of `login_msg` (unreachable here, since the id was just inserted). -/
def handleLogin (F : Chan → String → Bool) (c_id : ClientId) (ch : Chan)
    (c : Connections) : Connections × Option (List WriteEvent) :=
  let c1 := c.insert c_id ch
  match c1.login_msg F c_id with
  | some (c2, evs) => (c2, some evs)
  | none => (c1, none)

example : (Connections.new.insert 100 7).lookup 100 = some 7 := by decide

example :
    ((Connections.new.insert 100 7).broadcast (fun _ _ => true) 100
      (wrapMsg 100 "hello")).snd = [⟨7, "ACK:MESSAGE\n", true⟩] := by decide

/-! ### Helper lemmas -/

theorem wrapMsg_ne_ackToken (s : ClientId) (line : String) : wrapMsg s line ≠ ackToken := by
  intro h
  have hd : (wrapMsg s line).data = ackToken.data := by rw [h]
  rw [wrapMsg, ackToken] at hd
  rw [String.data_append, String.data_append, String.data_append, String.data_append] at hd
  have e1 : ("MESSAGE:" : String).data = 'M' :: "ESSAGE:".data := rfl
  have e2 : ("ACK:MESSAGE\n" : String).data = 'A' :: "CK:MESSAGE\n".data := rfl
  rw [e1, e2, List.cons_append, List.cons_append, List.cons_append] at hd
  exact absurd (List.head_eq_of_cons_eq hd) (by decide)

theorem zip_map_eq {α β : Type _} (l : List α) (f : α → β) :
    l.zip (l.map f) = l.map (fun x => (x, f x)) := by
  induction l with
  | nil => rfl
  | cons x xs ih => simp [List.zip_cons_cons, ih]

theorem lookupList_eq_none (l : List (ClientId × Chan)) (id : ClientId) :
    lookupList l id = none ↔ ∀ p ∈ l, p.fst ≠ id := by
  induction l with
  | nil => simp [lookupList]
  | cons p rest ih =>
    by_cases hp : p.fst = id
    · simp [lookupList, hp]
    · simp [lookupList, hp, ih]

theorem lookupList_filter_self (l : List (ClientId × Chan)) (id : ClientId) :
    lookupList (l.filter (fun p => p.fst ≠ id)) id = none := by
  rw [lookupList_eq_none]
  intro p hp
  have := List.of_mem_filter hp
  simpa using this

theorem lookupList_filter_frame (l : List (ClientId × Chan)) (id j : ClientId) (hj : j ≠ id) :
    lookupList (l.filter (fun p => p.fst ≠ id)) j = lookupList l j := by
  induction l with
  | nil => rfl
  | cons p rest ih =>
    by_cases hp : p.fst = id
    · have hpj : ¬ p.fst = j := fun h => hj (h.symm.trans hp)
      have hc : (p :: rest).filter (fun q => q.fst ≠ id) =
          rest.filter (fun q => q.fst ≠ id) := by
        simp [List.filter_cons, hp]
      rw [hc, ih, lookupList, if_neg hpj]
    · have hc : (p :: rest).filter (fun q => q.fst ≠ id) =
          p :: rest.filter (fun q => q.fst ≠ id) := by
        simp [List.filter_cons, hp]
      rw [hc, lookupList, lookupList, ih]

theorem Connections.lookup_insert_self (c : Connections) (id : ClientId) (ch : Chan) :
    (c.insert id ch).lookup id = some ch := by
  simp [Connections.insert, Connections.lookup, lookupList]

theorem Connections.lookup_insert_frame (c : Connections) (id j : ClientId) (ch : Chan)
    (hj : j ≠ id) : (c.insert id ch).lookup j = c.lookup j := by
  simp only [Connections.insert, Connections.lookup, lookupList]
  rw [if_neg (fun h => hj h.symm)]
  exact lookupList_filter_frame c.cons id j hj

theorem Connections.lookup_remove_self (c : Connections) (id : ClientId) :
    (c.remove id).lookup id = none :=
  lookupList_filter_self c.cons id

theorem Connections.Wf_new : Connections.new.Wf := by
  simp [Connections.new, Connections.Wf]

theorem Connections.Wf_insert (c : Connections) (h : c.Wf) (id : ClientId) (ch : Chan) :
    (c.insert id ch).Wf := by
  unfold Connections.Wf Connections.insert at *
  rw [List.map_cons, List.nodup_cons]
  constructor
  · intro hmem
    obtain ⟨p, hp, hfst⟩ := List.mem_map.mp hmem
    have := List.of_mem_filter hp
    simp at this
    exact this hfst
  · exact h.sublist (List.Sublist.map _ (List.filter_sublist _))

theorem Connections.Wf_remove (c : Connections) (h : c.Wf) (id : ClientId) :
    (c.remove id).Wf := by
  unfold Connections.Wf Connections.remove at *
  exact h.sublist (List.Sublist.map _ (List.filter_sublist _))

theorem countKey_le_one (l : List (ClientId × Chan)) (h : (l.map Prod.fst).Nodup)
    (j : ClientId) : (l.filter (fun p => p.fst = j)).length ≤ 1 := by
  induction l with
  | nil => simp
  | cons p rest ih =>
    rw [List.map_cons, List.nodup_cons] at h
    by_cases hp : p.fst = j
    · have hrest : rest.filter (fun q => q.fst = j) = [] := by
        rw [List.filter_eq_nil_iff]
        intro q hq
        simp only [decide_eq_true_eq]
        intro hqj
        exact h.1 (hp ▸ hqj ▸ List.mem_map_of_mem Prod.fst hq)
      simp [List.filter_cons, hp, hrest]
    · simp only [List.filter_cons, hp, decide_eq_true_eq, if_false]
      simpa using ih h.2

theorem Connections.keyCount_le_one (c : Connections) (h : c.Wf) (j : ClientId) :
    c.keyCount j ≤ 1 :=
  countKey_le_one c.cons h j

theorem broadcast_mem_bytes (F : Chan → String → Bool) (c : Connections) (s : ClientId)
    (m : String) (ev : WriteEvent) (hev : ev ∈ (c.broadcast F s m).snd) :
    (ev.bytes = m ∨ ev.bytes = ackToken) ∧ ev.ok = F ev.chan ev.bytes := by
  simp only [Connections.broadcast] at hev
  obtain ⟨p, _, hp⟩ := List.mem_map.mp hev
  by_cases hps : p.fst = s
  · rw [if_neg (by simpa using hps)] at hp
    subst hp; exact ⟨Or.inr rfl, rfl⟩
  · rw [if_pos (by simpa using hps)] at hp
    subst hp; exact ⟨Or.inl rfl, rfl⟩

theorem broadcast_zip_mem (F : Chan → String → Bool) (c : Connections) (s : ClientId)
    (m : String) (pe : (ClientId × Chan) × WriteEvent)
    (hpe : pe ∈ c.cons.zip (c.broadcast F s m).snd) :
    pe.fst ∈ c.cons ∧
      pe.snd = (if pe.fst.fst ≠ s then
          WriteEvent.mk pe.fst.snd m (F pe.fst.snd m)
        else
          WriteEvent.mk pe.fst.snd ackToken (F pe.fst.snd ackToken)) := by
  simp only [Connections.broadcast] at hpe
  rw [zip_map_eq] at hpe
  obtain ⟨p, hp, hpp⟩ := List.mem_map.mp hpe
  rw [← hpp]
  exact ⟨hp, rfl⟩

/-! ### Claim theorems -/

/-- C1: for every call to `Connections::broadcast(sender_id, message)` with the
wrapped message, every registered entry `(id, channel)` receives exactly one
write: the wrapped message if `id ≠ sender_id`, and exactly `ACK:MESSAGE\n` if
`id = sender_id`; the sender's entry never receives the wrapped message and no
other entry ever receives the acknowledgement (the two byte strings are
distinct). -/
theorem broadcast_self_exclusion (F : Chan → String → Bool) (c : Connections)
    (s : ClientId) (line : String) :
    ((c.broadcast F s (wrapMsg s line)).snd).length = c.cons.length ∧
    ∀ pe ∈ c.cons.zip (c.broadcast F s (wrapMsg s line)).snd,
      pe.snd.chan = pe.fst.snd ∧
      (pe.fst.fst ≠ s → pe.snd.bytes = wrapMsg s line ∧ pe.snd.bytes ≠ ackToken) ∧
      (pe.fst.fst = s → pe.snd.bytes = ackToken ∧ pe.snd.bytes ≠ wrapMsg s line) := by
  constructor
  · simp [Connections.broadcast]
  · intro pe hpe
    obtain ⟨_, hev⟩ := broadcast_zip_mem F c s (wrapMsg s line) pe hpe
    by_cases hps : pe.fst.fst = s
    · rw [hev, if_neg (by simpa using hps)]
      exact ⟨rfl, fun h => absurd hps h, fun _ =>
        ⟨rfl, fun h => wrapMsg_ne_ackToken s line h.symm⟩⟩
    · rw [hev, if_pos (by simpa using hps)]
      exact ⟨rfl, fun _ => ⟨rfl, wrapMsg_ne_ackToken s line⟩, fun h => absurd h hps⟩

/-- C1 witness: two registered clients `100 ↦ 7` and `200 ↦ 9`; client `100`
broadcasts `hello`: the entry `(200, 9)` pairs with a write of the wrapped
message to channel `9`. -/
theorem broadcast_self_exclusion_witness :
    (((200, 9), WriteEvent.mk 9 (wrapMsg 100 "hello") true) ∈
      (Connections.mk [(100, 7), (200, 9)]).cons.zip
        ((Connections.mk [(100, 7), (200, 9)]).broadcast (fun _ _ => true) 100
          (wrapMsg 100 "hello")).snd) ∧
    (WriteEvent.mk 9 (wrapMsg 100 "hello") true).chan = ((200 : ClientId), (9 : Chan)).snd ∧
    (((200 : ClientId), (9 : Chan)).fst ≠ 100 →
      (WriteEvent.mk 9 (wrapMsg 100 "hello") true).bytes = wrapMsg 100 "hello" ∧
      (WriteEvent.mk 9 (wrapMsg 100 "hello") true).bytes ≠ ackToken) ∧
    (((200 : ClientId), (9 : Chan)).fst = 100 →
      (WriteEvent.mk 9 (wrapMsg 100 "hello") true).bytes = ackToken ∧
      (WriteEvent.mk 9 (wrapMsg 100 "hello") true).bytes ≠ wrapMsg 100 "hello") :=
  ⟨by decide,
    (broadcast_self_exclusion (fun _ _ => true) (Connections.mk [(100, 7), (200, 9)])
      100 "hello").2 ((200, 9), WriteEvent.mk 9 (wrapMsg 100 "hello") true) (by decide)⟩

/-- C3: a write failure to one registered connection never aborts the
broadcast sweep.  The sweep produces one write per registered entry, the
targets and bytes of all writes are identical under any two failure oracles
`F`, `G` (so which writes fail has no influence on which writes are attempted,
in particular a failed acknowledgement to the sender leaves every delivery to
the others in place), and each write's outcome is exactly the oracle's verdict
on that single channel and byte string. -/
theorem broadcast_fanout_isolation (F G : Chan → String → Bool) (c : Connections)
    (s : ClientId) (m : String) :
    ((c.broadcast F s m).snd).length = c.cons.length ∧
    ((c.broadcast F s m).snd).map (fun e => (e.chan, e.bytes)) =
      ((c.broadcast G s m).snd).map (fun e => (e.chan, e.bytes)) ∧
    ∀ ev ∈ (c.broadcast F s m).snd, ev.ok = F ev.chan ev.bytes := by
  refine ⟨by simp [Connections.broadcast], ?_, ?_⟩
  · simp only [Connections.broadcast, List.map_map]
    apply List.map_congr_left
    intro p _
    by_cases hps : p.fst = s
    · simp [hps]
    · simp [hps]
  · intro ev hev
    exact (broadcast_mem_bytes F c s m ev hev).2

/-- C3 witness: with clients `100 ↦ 7`, `200 ↦ 9`, `300 ↦ 11`, an oracle
failing every write to channel `7` versus one failing nothing: both sweeps
write the same bytes to the same channels, and the event written to channel
`9` carries the failing oracle's verdict for its own channel. -/
theorem broadcast_fanout_isolation_witness :
    (((Connections.mk [(100, 7), (200, 9), (300, 11)]).broadcast
        (fun ch _ => ch ≠ 7) 100 (wrapMsg 100 "hi")).snd).length =
      (Connections.mk [(100, 7), (200, 9), (300, 11)]).cons.length ∧
    (((Connections.mk [(100, 7), (200, 9), (300, 11)]).broadcast
        (fun ch _ => ch ≠ 7) 100 (wrapMsg 100 "hi")).snd).map (fun e => (e.chan, e.bytes)) =
      (((Connections.mk [(100, 7), (200, 9), (300, 11)]).broadcast
        (fun _ _ => true) 100 (wrapMsg 100 "hi")).snd).map (fun e => (e.chan, e.bytes)) ∧
    (WriteEvent.mk 9 (wrapMsg 100 "hi") true ∈
        ((Connections.mk [(100, 7), (200, 9), (300, 11)]).broadcast
          (fun ch _ => ch ≠ 7) 100 (wrapMsg 100 "hi")).snd) ∧
    (WriteEvent.mk 9 (wrapMsg 100 "hi") true).ok =
      (fun (ch : Chan) (_ : String) => decide (ch ≠ 7)) 9 (wrapMsg 100 "hi") := by
  have h := broadcast_fanout_isolation (fun ch _ => ch ≠ 7) (fun _ _ => true)
    (Connections.mk [(100, 7), (200, 9), (300, 11)]) 100 (wrapMsg 100 "hi")
  exact ⟨h.1, h.2.1, by decide,
    h.2.2 (WriteEvent.mk 9 (wrapMsg 100 "hi") true) (by decide)⟩

/-- C5: the registry holds at most one channel per identifier at every
instant: the empty registry is well-formed, `insert` and `remove` preserve
well-formedness, and well-formedness bounds the number of entries per key by
one.  `insert` with an identifier already present does not fail (it is a total
function): it silently overwrites — afterwards the identifier maps to the new
channel — and leaves every other identifier's binding unchanged. -/
theorem registry_exclusivity (c : Connections) (id : ClientId) (ch : Chan) :
    Connections.new.Wf ∧
    (c.Wf → (c.insert id ch).Wf) ∧
    (c.Wf → (c.remove id).Wf) ∧
    (c.Wf → ∀ j, (c.insert id ch).keyCount j ≤ 1) ∧
    (c.insert id ch).lookup id = some ch ∧
    (∀ j, j ≠ id → (c.insert id ch).lookup j = c.lookup j) := by
  refine ⟨Connections.Wf_new, fun h => Connections.Wf_insert c h id ch,
    fun h => Connections.Wf_remove c h id,
    fun h j => Connections.keyCount_le_one _ (Connections.Wf_insert c h id ch) j,
    Connections.lookup_insert_self c id ch,
    fun j hj => Connections.lookup_insert_frame c id j ch hj⟩

/-- C5 witness: registry `{100 ↦ 7, 200 ↦ 9}`; re-registering `100 ↦ 12`
keeps well-formedness, keeps every key count at most one, maps `100` to the
new channel `12`, and leaves `200 ↦ 9` unchanged. -/
theorem registry_exclusivity_witness :
    Connections.new.Wf ∧
    ((Connections.mk [(100, 7), (200, 9)]).insert 100 12).Wf ∧
    ((Connections.mk [(100, 7), (200, 9)]).insert 100 12).keyCount 100 ≤ 1 ∧
    ((Connections.mk [(100, 7), (200, 9)]).insert 100 12).lookup 100 = some 12 ∧
    ((Connections.mk [(100, 7), (200, 9)]).insert 100 12).lookup 200 =
      (Connections.mk [(100, 7), (200, 9)]).lookup 200 := by
  have hwf : (Connections.mk [(100, 7), (200, 9)]).Wf := by
    simp [Connections.Wf]
  have h := registry_exclusivity (Connections.mk [(100, 7), (200, 9)]) 100 12
  exact ⟨h.1, h.2.1 hwf, h.2.2.2.1 hwf 100, h.2.2.2.2.1,
    h.2.2.2.2.2 200 (by decide)⟩

/-- C9: write failures never mutate the registry.  For every failure oracle
(in particular one failing every write), `Connections::broadcast` returns the
registry it was given — every identifier still maps to the same channel — and
when `Connections::login_msg` returns at all, it also returns the unchanged
registry. -/
theorem write_failure_frame (F : Chan → String → Bool) (c : Connections)
    (s c_id : ClientId) (m : String) :
    (c.broadcast F s m).fst = c ∧
    (∀ j, ((c.broadcast F s m).fst).lookup j = c.lookup j) ∧
    (∀ r, c.login_msg F c_id = some r → r.fst = c) := by
  refine ⟨rfl, fun _ => rfl, fun r hr => ?_⟩
  unfold Connections.login_msg at hr
  cases hl : c.lookup c_id with
  | none => rw [hl] at hr; exact absurd hr (by simp)
  | some ch => rw [hl] at hr; simp at hr; rw [← hr]

/-- C9 witness: registry `{100 ↦ 7, 200 ↦ 9}` with an oracle failing every
write: a broadcast from `100` and the login write for `200` both leave the
registry exactly as it was. -/
theorem write_failure_frame_witness :
    ((Connections.mk [(100, 7), (200, 9)]).broadcast (fun _ _ => false) 100
      (wrapMsg 100 "hello")).fst = Connections.mk [(100, 7), (200, 9)] ∧
    (Connections.mk [(100, 7), (200, 9)], [WriteEvent.mk 9 (loginToken 200) false]).fst =
      Connections.mk [(100, 7), (200, 9)] := by
  have h := write_failure_frame (fun _ _ => false)
    (Connections.mk [(100, 7), (200, 9)]) 100 200 (wrapMsg 100 "hello")
  exact ⟨h.1, h.2.2 (Connections.mk [(100, 7), (200, 9)],
    [WriteEvent.mk 9 (loginToken 200) false]) (by decide)⟩

/-- C10: a broadcast whose `sender_id` is absent from the registry writes the
message to every registered connection and the acknowledgement to no one, and
completes without error (the sweep is a total function producing one write per
entry). -/
theorem broadcast_absent_sender (F : Chan → String → Bool) (c : Connections)
    (s : ClientId) (m : String) (h : c.lookup s = none) :
    (c.broadcast F s m).snd = c.cons.map (fun p => ⟨p.snd, m, F p.snd m⟩) ∧
    (m ≠ ackToken → ∀ ev ∈ (c.broadcast F s m).snd, ev.bytes ≠ ackToken) := by
  have habs : ∀ p ∈ c.cons, p.fst ≠ s := (lookupList_eq_none c.cons s).mp h
  have hsnd : (c.broadcast F s m).snd =
      c.cons.map (fun p => ⟨p.snd, m, F p.snd m⟩) := by
    simp only [Connections.broadcast]
    apply List.map_congr_left
    intro p hp
    rw [if_pos (by simpa using habs p hp)]
  refine ⟨hsnd, ?_⟩
  intro hm ev hev
  rw [hsnd] at hev
  obtain ⟨p, _, hp⟩ := List.mem_map.mp hev
  rw [← hp]
  exact hm

/-- C10 witness: registry `{100 ↦ 7, 200 ↦ 9}`, broadcast from absent sender
`300`: both entries receive the wrapped message and no event carries the
acknowledgement token. -/
theorem broadcast_absent_sender_witness :
    ((Connections.mk [(100, 7), (200, 9)]).broadcast (fun _ _ => true) 300
        (wrapMsg 300 "hi")).snd =
      (Connections.mk [(100, 7), (200, 9)]).cons.map
        (fun p => ⟨p.snd, wrapMsg 300 "hi", true⟩) ∧
    (WriteEvent.mk 7 (wrapMsg 300 "hi") true).bytes ≠ ackToken := by
  have h := broadcast_absent_sender (fun _ _ => true)
    (Connections.mk [(100, 7), (200, 9)]) 300 (wrapMsg 300 "hi") (by decide)
  exact ⟨h.1, h.2 (wrapMsg_ne_ackToken 300 "hi")
    (WriteEvent.mk 7 (wrapMsg 300 "hi") true) (by decide)⟩

theorem handleRun_bytes (F : Chan → String → Bool) (c_id : ClientId)
    (inputs : List ReadResult) : ∀ (c : Connections),
    ∀ ev ∈ (handleRun F c_id c inputs).snd,
      ev.bytes = ackToken ∨ ∃ u, ev.bytes = wrapMsg c_id u := by
  induction inputs with
  | nil => intro c ev hev; simp [handleRun] at hev
  | cons r rs ih =>
    intro c ev hev
    cases r with
    | line s =>
      have hstep : handleRun F c_id c (ReadResult.line s :: rs) =
          ((handleRun F c_id (c.broadcast F c_id (wrapMsg c_id s)).fst rs).fst,
            (c.broadcast F c_id (wrapMsg c_id s)).snd ++
              (handleRun F c_id (c.broadcast F c_id (wrapMsg c_id s)).fst rs).snd) := rfl
      rw [hstep] at hev
      rcases List.mem_append.mp hev with hl | hr
      · rcases (broadcast_mem_bytes F c c_id (wrapMsg c_id s) ev hl).1 with hb | hb
        · exact Or.inr ⟨s, hb⟩
        · exact Or.inl hb
      · exact ih _ ev hr
    | eof =>
      have hstep : handleRun F c_id c (ReadResult.eof :: rs) =
          ((handleRun F c_id c rs).fst, [] ++ (handleRun F c_id c rs).snd) := rfl
      rw [hstep] at hev
      exact ih c ev ((List.mem_append.mp hev).resolve_left (by simp))
    | err =>
      have hstep : handleRun F c_id c (ReadResult.err :: rs) =
          (c.remove c_id, []) := rfl
      rw [hstep] at hev
      simp at hev

/-- C2: the bytes the server writes are exactly the specified wire formats.
On a successful join the newly registered client's channel is sent exactly
`LOGIN:<id>\n`; on receipt of a complete line `<text>` the handler invokes the
broadcast that sends `MESSAGE:<id> <text>\n` to every other entry and
`ACK:MESSAGE\n` to the sender; and every byte string the read loop ever
writes is either the acknowledgement token or a wrapped message — no other
server-to-client message exists. -/
theorem server_wire_formats (F : Chan → String → Bool) (c : Connections)
    (c_id : ClientId) (ch : Chan) (inputs : List ReadResult) (t : String) :
    (handleLogin F c_id ch c).snd =
      some [WriteEvent.mk ch (loginToken c_id) (F ch (loginToken c_id))] ∧
    (handleStep F c_id c (ReadResult.line t)).snd.fst =
      (c.broadcast F c_id (wrapMsg c_id t)).snd ∧
    (∀ pe ∈ c.cons.zip (handleStep F c_id c (ReadResult.line t)).snd.fst,
      pe.snd.chan = pe.fst.snd ∧
      (pe.fst.fst ≠ c_id → pe.snd.bytes = wrapMsg c_id t) ∧
      (pe.fst.fst = c_id → pe.snd.bytes = ackToken)) ∧
    (∀ ev ∈ (handleRun F c_id c inputs).snd,
      ev.bytes = ackToken ∨ ∃ u, ev.bytes = wrapMsg c_id u) := by
  refine ⟨?_, rfl, ?_, handleRun_bytes F c_id inputs c⟩
  · simp [handleLogin, Connections.login_msg, Connections.lookup_insert_self]
  · intro pe hpe
    obtain ⟨_, hev⟩ := broadcast_zip_mem F c c_id (wrapMsg c_id t) pe hpe
    by_cases hps : pe.fst.fst = c_id
    · rw [hev, if_neg (by simpa using hps)]
      exact ⟨rfl, fun h => absurd hps h, fun _ => rfl⟩
    · rw [hev, if_pos (by simpa using hps)]
      exact ⟨rfl, fun _ => rfl, fun h => absurd h hps⟩

/-- C2 witness: client `100` joins an empty registry over channel `7` and then
sends `hello` followed by end of stream: the join writes exactly
`LOGIN:100\n`, and the first event of the run is an acknowledgement or a
wrapped message. -/
theorem server_wire_formats_witness :
    (handleLogin (fun _ _ => true) 100 7 Connections.new).snd =
      some [WriteEvent.mk 7 (loginToken 100) true] ∧
    (((100 : ClientId), (7 : Chan)).fst = 100 →
      (WriteEvent.mk 7 ackToken true).bytes = ackToken) ∧
    ((WriteEvent.mk 7 ackToken true).bytes = ackToken ∨
      ∃ u, (WriteEvent.mk 7 ackToken true).bytes = wrapMsg 100 u) := by
  have h := server_wire_formats (fun _ _ => true) (Connections.new.insert 100 7)
    100 7 [ReadResult.line "hello", ReadResult.eof] "hello"
  refine ⟨?_, (h.2.2.1 ((100, 7), WriteEvent.mk 7 ackToken true) (by decide)).2.2,
    h.2.2.2 (WriteEvent.mk 7 ackToken true) (by decide)⟩
  have h0 := server_wire_formats (fun _ _ => true) Connections.new
    100 7 [] "hello"
  exact h0.1

/-- C4: after a read error on connection `c_id`, the handler removes `c_id`
from the registry and stops permanently (the rest of the input stream
produces no state change and no writes); `c_id` no longer resolves in the
registry, every subsequent broadcast pairs its writes only with entries whose
key differs from `c_id`, and a later `insert` of the same `c_id` succeeds
cleanly, restoring a well-formed registry in which `c_id` maps to the fresh
channel. -/
theorem read_error_deregisters (F : Chan → String → Bool) (c_id : ClientId)
    (c : Connections) (rs : List ReadResult) :
    handleRun F c_id c (ReadResult.err :: rs) = (c.remove c_id, []) ∧
    (c.remove c_id).lookup c_id = none ∧
    (∀ F' s m,
      (((c.remove c_id).broadcast F' s m).snd).length = ((c.remove c_id).cons).length ∧
      ∀ pe ∈ ((c.remove c_id).cons).zip (((c.remove c_id).broadcast F' s m).snd),
        pe.fst.fst ≠ c_id ∧ pe.snd.chan = pe.fst.snd) ∧
    ∀ ch, ((c.remove c_id).insert c_id ch).lookup c_id = some ch ∧
      (c.Wf → ((c.remove c_id).insert c_id ch).Wf) := by
  refine ⟨rfl, Connections.lookup_remove_self c c_id, ?_, ?_⟩
  · intro F' s m
    refine ⟨by simp [Connections.broadcast], ?_⟩
    intro pe hpe
    obtain ⟨hmem, hev⟩ := broadcast_zip_mem F' (c.remove c_id) s m pe hpe
    constructor
    · have := List.of_mem_filter hmem
      simpa using this
    · rw [hev]
      by_cases hps : pe.fst.fst = s
      · rw [if_neg (by simpa using hps)]
      · rw [if_pos (by simpa using hps)]
  · intro ch
    exact ⟨Connections.lookup_insert_self _ c_id ch,
      fun h => Connections.Wf_insert _ (Connections.Wf_remove c h c_id) c_id ch⟩

/-- C4 witness: registry `{100 ↦ 7, 200 ↦ 9}`; handler of client `100` hits a
read error followed by more input: the run stops at `{200 ↦ 9}` with no
writes, lookup of `100` fails, the zipped broadcast entry for `(200, 9)` is
not keyed `100`, and re-registering `100 ↦ 12` restores `100 ↦ 12`. -/
theorem read_error_deregisters_witness :
    handleRun (fun _ _ => true) 100 (Connections.mk [(100, 7), (200, 9)])
        [ReadResult.err, ReadResult.line "x"] =
      ((Connections.mk [(100, 7), (200, 9)]).remove 100, []) ∧
    ((Connections.mk [(100, 7), (200, 9)]).remove 100).lookup 100 = none ∧
    (((200 : ClientId), (9 : Chan)).fst ≠ 100 ∧
      (WriteEvent.mk 9 ackToken true).chan = 9) ∧
    (((Connections.mk [(100, 7), (200, 9)]).remove 100).insert 100 12).lookup 100 =
      some 12 := by
  have h := read_error_deregisters (fun _ _ => true) 100
    (Connections.mk [(100, 7), (200, 9)]) [ReadResult.line "x"]
  exact ⟨h.1, h.2.1,
    (h.2.2.1 (fun _ _ => true) 200 (wrapMsg 200 "x")).2
      ((200, 9), WriteEvent.mk 9 ackToken true) (by decide),
    (h.2.2.2 12).1⟩

/-- C6: a read yielding no further lines (`Ok(None)`, end of stream) is a
no-op: the registry is unchanged, nothing is written, and the read loop
continues; more generally every read outcome other than an error leaves the
registry unchanged and continues the loop, and only a read error can change
the registry. -/
theorem eof_not_deregister (F : Chan → String → Bool) (c_id : ClientId)
    (c : Connections) :
    handleStep F c_id c ReadResult.eof = (c, [], true) ∧
    (∀ r, r ≠ ReadResult.err →
      (handleStep F c_id c r).fst = c ∧ (handleStep F c_id c r).snd.snd = true) ∧
    (∀ r, (handleStep F c_id c r).fst ≠ c → r = ReadResult.err) := by
  refine ⟨rfl, ?_, ?_⟩
  · intro r hr
    cases r with
    | line s => exact ⟨rfl, rfl⟩
    | eof => exact ⟨rfl, rfl⟩
    | err => exact absurd rfl hr
  · intro r hr
    cases r with
    | line s => exact absurd rfl hr
    | eof => exact absurd rfl hr
    | err => rfl

/-- C6 witness: registry `{100 ↦ 7}`; end of stream on client `100`'s handler
leaves the registry entry in place and the loop running. -/
theorem eof_not_deregister_witness :
    handleStep (fun _ _ => true) 100 (Connections.mk [(100, 7)]) ReadResult.eof =
      (Connections.mk [(100, 7)], [], true) ∧
    (handleStep (fun _ _ => true) 100 (Connections.mk [(100, 7)])
        (ReadResult.line "x")).fst = Connections.mk [(100, 7)] := by
  have h := eof_not_deregister (fun _ _ => true) 100 (Connections.mk [(100, 7)])
  exact ⟨h.1, (h.2.1 (ReadResult.line "x") (by decide)).1⟩

/-- C7 counterexample: calling `Connections::login_msg` for identifier `100`
on an empty registry — an identifier absent from the registry — does not
return normally with no write performed: the `.unwrap()` on the failed lookup
panics, modelled by the `none` result. -/
theorem login_msg_absent_panics :
    Connections.new.lookup 100 = none ∧
    Connections.new.login_msg (fun _ _ => true) 100 = none := by decide

/-- C7 (amended): in the login-acknowledgement path, invoking the send for an
identifier absent from the registry panics (the `.unwrap()` on the failed
lookup aborts the task, modelled by `none`) rather than silently no-opping;
under the precondition that the identifier was just registered, the absent
branch is unreachable: the call returns normally, performing exactly one
write of `LOGIN:<id>\n` to the freshly registered channel. -/
theorem login_msg_absent_unreachable (F : Chan → String → Bool)
    (c c' : Connections) (c_id : ClientId) (ch : Chan) :
    (c'.lookup c_id = none → c'.login_msg F c_id = none) ∧
    (c.insert c_id ch).login_msg F c_id =
      some (c.insert c_id ch,
        [WriteEvent.mk ch (loginToken c_id) (F ch (loginToken c_id))]) := by
  constructor
  · intro h
    unfold Connections.login_msg
    rw [h]
  · unfold Connections.login_msg
    rw [Connections.lookup_insert_self]

/-- C7 witness: on the empty registry, `login_msg` for the absent identifier
`100` panics (`none`); after registering `100 ↦ 7` over registry
`{200 ↦ 9}`, the same call returns normally with the single login write. -/
theorem login_msg_absent_unreachable_witness :
    Connections.new.login_msg (fun _ _ => false) 100 = none ∧
    ((Connections.mk [(200, 9)]).insert 100 7).login_msg (fun _ _ => false) 100 =
      some ((Connections.mk [(200, 9)]).insert 100 7,
        [WriteEvent.mk 7 (loginToken 100) false]) := by
  have h := login_msg_absent_unreachable (fun _ _ => false)
    (Connections.mk [(200, 9)]) Connections.new 100 7
  exact ⟨h.1 (by decide), h.2⟩

/-- C8: a received line that decodes to the empty string is not filtered: the
handler broadcasts it like any other line, so every other registered entry is
written `MESSAGE:<id> \n` and the sender's entry `ACK:MESSAGE\n`; only
`Ok(None)` — end of input before a complete line — is skipped (no write, no
state change). -/
theorem empty_line_broadcast (F : Chan → String → Bool) (c : Connections)
    (c_id : ClientId) :
    wrapMsg c_id "" = "MESSAGE:" ++ toString c_id ++ " \n" ∧
    (handleStep F c_id c (ReadResult.line "")).snd.fst =
      (c.broadcast F c_id (wrapMsg c_id "")).snd ∧
    (∀ pe ∈ c.cons.zip (handleStep F c_id c (ReadResult.line "")).snd.fst,
      (pe.fst.fst ≠ c_id → pe.snd.bytes = "MESSAGE:" ++ toString c_id ++ " \n") ∧
      (pe.fst.fst = c_id → pe.snd.bytes = ackToken)) ∧
    handleStep F c_id c ReadResult.eof = (c, [], true) := by
  have hw : wrapMsg c_id "" = "MESSAGE:" ++ toString c_id ++ " \n" := by
    unfold wrapMsg
    rw [String.append_empty, String.append_assoc]
    rfl
  refine ⟨hw, rfl, ?_, rfl⟩
  intro pe hpe
  obtain ⟨_, hev⟩ := broadcast_zip_mem F c c_id (wrapMsg c_id "") pe hpe
  by_cases hps : pe.fst.fst = c_id
  · rw [hev, if_neg (by simpa using hps)]
    exact ⟨fun h => absurd hps h, fun _ => rfl⟩
  · rw [hev, if_pos (by simpa using hps)]
    exact ⟨fun _ => hw ▸ rfl, fun h => absurd h hps⟩

/-- C8 witness: clients `100 ↦ 7` and `200 ↦ 9`; client `100` sends the empty
line: the entry `(200, 9)` is written `MESSAGE:100 \n`, and end of stream is
skipped. -/
theorem empty_line_broadcast_witness :
    wrapMsg 100 "" = "MESSAGE:" ++ toString 100 ++ " \n" ∧
    ((((200 : ClientId), (9 : Chan)).fst ≠ 100 →
      (WriteEvent.mk 9 (wrapMsg 100 "") true).bytes =
        "MESSAGE:" ++ toString (100 : ClientId) ++ " \n") ∧
     (((200 : ClientId), (9 : Chan)).fst = 100 →
      (WriteEvent.mk 9 (wrapMsg 100 "") true).bytes = ackToken)) ∧
    handleStep (fun _ _ => true) 100 (Connections.mk [(100, 7), (200, 9)])
      ReadResult.eof = (Connections.mk [(100, 7), (200, 9)], [], true) := by
  have h := empty_line_broadcast (fun _ _ => true)
    (Connections.mk [(100, 7), (200, 9)]) 100
  exact ⟨h.1,
    h.2.2.1 ((200, 9), WriteEvent.mk 9 (wrapMsg 100 "") true) (by decide),
    h.2.2.2⟩
